import Mathlib

/-!
Verification of the DataHub fetch/cache/fallback pipeline
(`project100x/src/datahub.py`).

Shallow embedding conventions:
* A calendar date is a day number `ℤ` (`pd.date_range(start, end, freq='D')`
  with `start ≤ end` becomes the arithmetic sequence `start, start+1, …, end`).
* Prices are `ℚ`; `np.random.uniform(a, b)` draws lie in the half-open
  interval `[a, b)` and `np.random.randint(a, b)` draws lie in `[a, b-1]`.
  All random draws of `_generate_simulated_ohlcv` are passed in explicitly as
  streams (one draw per day index), bundled in the structure `Draws`; the
  predicate `Draws.Valid` states the documented ranges of the numpy draws.
* A pandas DataFrame of OHLCV rows is a `List Bar`; emptiness of a DataFrame
  is emptiness of the list.
* `yf.download` (the external provider) is an opaque collaborator: its
  outcome for the one request a call makes is an `Option (List Bar)` —
  `none` models a raised exception, `some []` an empty result, `some df`
  rows.  File existence/content for the one symbol a call touches is an
  `Option (List Bar)`.  `get_ohlcv_data` returns the produced rows, the
  resulting file state, and whether the provider was invoked.
-/

/-- One OHLCV row, with the column names of the source DataFrame
(`Date` index plus `Open, High, Low, Close, Volume`). -/
structure Bar where
  Date : ℤ
  Open : ℚ
  High : ℚ
  Low : ℚ
  Close : ℚ
  Volume : ℕ
  deriving DecidableEq

/-- The random draws consumed by `_generate_simulated_ohlcv`, one stream per
`np.random` call site, indexed by day position `i` in the generated range. -/
structure Draws where
  /-- `np.random.uniform(50, 200)`: initial price. -/
  initial_price : ℚ
  /-- `np.random.uniform(-0.005, 0.01)`: drift factor used at step `i ≥ 1`. -/
  drift : ℕ → ℚ
  /-- `np.random.uniform(-0.002, 0.002, len(dates))`: open perturbation. -/
  open_noise : ℕ → ℚ
  /-- `np.random.uniform(-0.002, 0.002, len(dates))`: close perturbation. -/
  close_noise : ℕ → ℚ
  /-- `np.random.uniform(0.001, 0.005, len(dates))`: high factor draw. -/
  high_u : ℕ → ℚ
  /-- `np.random.uniform(0.001, 0.005, len(dates))`: low factor draw. -/
  low_u : ℕ → ℚ
  /-- `np.random.randint(100000, 10000000, len(dates))`: volume. -/
  volume : ℕ → ℕ

/-- The ranges of the numpy draws (`np.random.uniform(a, b)` lies in
`[a, b)`, `np.random.randint(a, b)` lies in `[a, b-1]`). -/
def Draws.Valid (r : Draws) : Prop :=
  (50 ≤ r.initial_price ∧ r.initial_price < 200) ∧
  (∀ i, -0.005 ≤ r.drift i ∧ r.drift i < 0.01) ∧
  (∀ i, -0.002 ≤ r.open_noise i ∧ r.open_noise i < 0.002) ∧
  (∀ i, -0.002 ≤ r.close_noise i ∧ r.close_noise i < 0.002) ∧
  (∀ i, 0.001 ≤ r.high_u i ∧ r.high_u i < 0.005) ∧
  (∀ i, 0.001 ≤ r.low_u i ∧ r.low_u i < 0.005) ∧
  (∀ i, 100000 ≤ r.volume i ∧ r.volume i < 10000000)

/-- `len(pd.date_range(start, end, freq='D'))`: number of calendar days from
`start_date` to `end_date` inclusive (0 when the range is reversed). -/
def numDays (start_date end_date : ℤ) : ℕ :=
  if start_date ≤ end_date then (end_date - start_date).toNat + 1 else 0

/-- The reference price path: `price_series[0] = initial_price`,
`price_series[i] = price_series[i-1] * (1 + uniform(-0.005, 0.01))`. -/
def price (r : Draws) : ℕ → ℚ
  | 0 => r.initial_price
  | i + 1 => price r i * (1 + r.drift (i + 1))

/-- `open_prices[i] = prices[i] * (1 + uniform(-0.002, 0.002))`. -/
def open_price (r : Draws) (i : ℕ) : ℚ :=
  price r i * (1 + r.open_noise i)

/-- `close_prices[i] = prices[i] * (1 + uniform(-0.002, 0.002))`. -/
def close_price (r : Draws) (i : ℕ) : ℚ :=
  price r i * (1 + r.close_noise i)

/-- `high_prices[i]` after the defensive clamp:
`np.maximum(np.maximum(open, close) * (1 + u), np.maximum(open, close))`. -/
def high_price (r : Draws) (i : ℕ) : ℚ :=
  max (max (open_price r i) (close_price r i) * (1 + r.high_u i))
    (max (open_price r i) (close_price r i))

/-- `low_prices[i]` after the defensive clamp:
`np.minimum(np.minimum(open, close) * (1 - u'), np.minimum(open, close))`. -/
def low_price (r : Draws) (i : ℕ) : ℚ :=
  min (min (open_price r i) (close_price r i) * (1 - r.low_u i))
    (min (open_price r i) (close_price r i))

/-- Row `i` of the generated DataFrame. -/
def mkBar (r : Draws) (start_date : ℤ) (i : ℕ) : Bar :=
  { Date := start_date + i
    Open := open_price r i
    High := high_price r i
    Low := low_price r i
    Close := close_price r i
    Volume := r.volume i }

/-- `DataHub._generate_simulated_ohlcv(ticker, start_date, end_date)`:
one row per calendar day of the range. -/
def generate_simulated_ohlcv (ticker : String) (start_date end_date : ℤ)
    (r : Draws) : List Bar :=
  (List.range (numDays start_date end_date)).map (mkBar r start_date)

/-- `DataHub._download_ohlcv`: try the provider; on a raised exception
(`none`) or an empty result (`some []`) fall back to the synthetic
generator, otherwise return the provider's rows. -/
def download_ohlcv (ticker : String) (start_date end_date : ℤ)
    (provider : Option (List Bar)) (r : Draws) : List Bar :=
  match provider with
  | none => generate_simulated_ohlcv ticker start_date end_date r
  | some df =>
      if df.isEmpty then generate_simulated_ohlcv ticker start_date end_date r
      else df

/-- `df[(df.index >= start) & (df.index <= end)]`: the rows whose date lies
in `[start_date, end_date]`. -/
def filterRange (df : List Bar) (start_date end_date : ℤ) : List Bar :=
  df.filter (fun b => decide (start_date ≤ b.Date) && decide (b.Date ≤ end_date))

/-- Outcome of one `get_ohlcv_data` call: the returned rows, the file state
for the symbol after the call, and whether `_download_ohlcv` ran. -/
structure HubResult where
  result : List Bar
  store : Option (List Bar)
  provider_invoked : Bool
  deriving DecidableEq

/-- `DataHub.get_ohlcv_data(ticker, start_date, end_date)`.  `store` is the
file state for `ticker` before the call (`none`: no `<ticker>.csv`);
`provider` is the outcome the external provider would produce if invoked. -/
def get_ohlcv_data (ticker : String) (start_date end_date : ℤ)
    (store : Option (List Bar)) (provider : Option (List Bar)) (r : Draws) :
    HubResult :=
  match store with
  | none =>
      let df := download_ohlcv ticker start_date end_date provider r
      { result := df, store := some df, provider_invoked := true }
  | some stored =>
      let df_filtered := filterRange stored start_date end_date
      if df_filtered.isEmpty then
        let df := download_ohlcv ticker start_date end_date provider r
        if df.isEmpty then
          { result := df_filtered, store := some stored, provider_invoked := true }
        else
          { result := filterRange df start_date end_date, store := some df,
            provider_invoked := true }
      else
        { result := df_filtered, store := some stored, provider_invoked := false }

/-- A concrete draw assignment inside every documented numpy range, used to
instantiate theorems with hypotheses. -/
def r0 : Draws :=
  { initial_price := 100
    drift := fun _ => 0
    open_noise := fun _ => 0
    close_noise := fun _ => 0
    high_u := fun _ => 1 / 500
    low_u := fun _ => 1 / 500
    volume := fun _ => 500000 }

theorem mkBar_Date (r : Draws) (s : ℤ) (i : ℕ) : (mkBar r s i).Date = s + i := rfl

theorem mkBar_ohlc (r : Draws) (s : ℤ) (i : ℕ) :
    (mkBar r s i).Low ≤ min (mkBar r s i).Open (mkBar r s i).Close ∧
      max (mkBar r s i).Open (mkBar r s i).Close ≤ (mkBar r s i).High :=
  ⟨min_le_right _ _, le_max_right _ _⟩

theorem mem_generate_ohlc {ticker : String} {s e : ℤ} {r : Draws} {b : Bar}
    (hb : b ∈ generate_simulated_ohlcv ticker s e r) :
    b.Low ≤ min b.Open b.Close ∧ max b.Open b.Close ≤ b.High := by
  obtain ⟨i, -, rfl⟩ := List.mem_map.mp hb
  exact mkBar_ohlc r s i

theorem generate_length (ticker : String) {s e : ℤ} (r : Draws) (h : s ≤ e) :
    (generate_simulated_ohlcv ticker s e r).length = (e - s).toNat + 1 := by
  simp [generate_simulated_ohlcv, numDays, h]

/-- C1: every bar of the synthetic generator satisfies the OHLC ordering
invariant `low ≤ min(open, close)` and `max(open, close) ≤ high`, for every
assignment of the random draws. -/
theorem generate_ohlc_invariant (ticker : String) (s e : ℤ) (r : Draws)
    (h : s ≤ e) (b : Bar) (hb : b ∈ generate_simulated_ohlcv ticker s e r) :
    b.Low ≤ min b.Open b.Close ∧ max b.Open b.Close ≤ b.High :=
  mem_generate_ohlc hb

theorem generate_ohlc_invariant_witness :
    (0 : ℤ) ≤ 0 ∧ mkBar r0 0 0 ∈ generate_simulated_ohlcv "XYZ" 0 0 r0 ∧
      ((mkBar r0 0 0).Low ≤ min (mkBar r0 0 0).Open (mkBar r0 0 0).Close ∧
        max (mkBar r0 0 0).Open (mkBar r0 0 0).Close ≤ (mkBar r0 0 0).High) :=
  ⟨le_refl 0, List.mem_singleton.mpr rfl,
    generate_ohlc_invariant "XYZ" 0 0 r0 (le_refl 0) (mkBar r0 0 0)
      (List.mem_singleton.mpr rfl)⟩

/-- C2: for `start ≤ end` the synthetic generator produces exactly
`(end - start) + 1` bars whose dates are precisely the calendar days
`start, start + 1, …, end` in order: contiguous, strictly increasing,
duplicate-free. -/
theorem generate_shape (ticker : String) (s e : ℤ) (r : Draws) (h : s ≤ e) :
    (generate_simulated_ohlcv ticker s e r).length = (e - s).toNat + 1 ∧
      (generate_simulated_ohlcv ticker s e r).map Bar.Date
        = (List.range ((e - s).toNat + 1)).map (fun i : ℕ => s + (i : ℤ)) ∧
      List.Chain' (fun a b => b = a + 1)
        ((generate_simulated_ohlcv ticker s e r).map Bar.Date) ∧
      ((generate_simulated_ohlcv ticker s e r).map Bar.Date).Nodup := by
  have hmap : (generate_simulated_ohlcv ticker s e r).map Bar.Date
      = (List.range ((e - s).toNat + 1)).map (fun i : ℕ => s + (i : ℤ)) := by
    unfold generate_simulated_ohlcv numDays
    rw [if_pos h, List.map_map]
    rfl
  refine ⟨generate_length ticker r h, hmap, ?_, ?_⟩
  · rw [hmap, List.chain'_map]
    refine (List.chain'_range_succ _ _).mpr ?_
    intro m _
    push_cast
    ring
  · rw [hmap]
    refine List.Nodup.map ?_ (List.nodup_range _)
    intro a b hab
    dsimp only at hab
    omega

theorem generate_shape_witness :
    (0 : ℤ) ≤ 2 ∧
      ((generate_simulated_ohlcv "XYZ" 0 2 r0).length = ((2 : ℤ) - 0).toNat + 1 ∧
        (generate_simulated_ohlcv "XYZ" 0 2 r0).map Bar.Date
          = (List.range (((2 : ℤ) - 0).toNat + 1)).map (fun i : ℕ => (0 : ℤ) + (i : ℤ)) ∧
        List.Chain' (fun a b => b = a + 1)
          ((generate_simulated_ohlcv "XYZ" 0 2 r0).map Bar.Date) ∧
        ((generate_simulated_ohlcv "XYZ" 0 2 r0).map Bar.Date).Nodup) :=
  ⟨by decide, generate_shape "XYZ" 0 2 r0 (by decide)⟩

theorem r0_valid : Draws.Valid r0 := by
  refine ⟨⟨?_, ?_⟩, fun i => ⟨?_, ?_⟩, fun i => ⟨?_, ?_⟩, fun i => ⟨?_, ?_⟩,
    fun i => ⟨?_, ?_⟩, fun i => ⟨?_, ?_⟩, fun i => ⟨?_, ?_⟩⟩ <;> norm_num [r0]

theorem price_pos {r : Draws} (hv : r.Valid) (i : ℕ) : 0 < price r i := by
  induction i with
  | zero =>
      have h50 := hv.1.1
      have : (0 : ℚ) < 50 := by norm_num
      simpa [price] using lt_of_lt_of_le this h50
  | succ n ih =>
      have hd := (hv.2.1 (n + 1)).1
      have hpos : (0 : ℚ) < 1 + r.drift (n + 1) := by
        have : (-0.005 : ℚ) > -1 := by norm_num
        linarith
      simpa [price] using mul_pos ih hpos

theorem open_price_pos {r : Draws} (hv : r.Valid) (i : ℕ) : 0 < open_price r i := by
  have hn := (hv.2.2.1 i).1
  have hpos : (0 : ℚ) < 1 + r.open_noise i := by
    have : (-0.002 : ℚ) > -1 := by norm_num
    linarith
  exact mul_pos (price_pos hv i) hpos

theorem close_price_pos {r : Draws} (hv : r.Valid) (i : ℕ) : 0 < close_price r i := by
  have hn := (hv.2.2.2.1 i).1
  have hpos : (0 : ℚ) < 1 + r.close_noise i := by
    have : (-0.002 : ℚ) > -1 := by norm_num
    linarith
  exact mul_pos (price_pos hv i) hpos

theorem high_price_pos {r : Draws} (hv : r.Valid) (i : ℕ) : 0 < high_price r i :=
  lt_of_lt_of_le (lt_max_of_lt_left (open_price_pos hv i)) (le_max_right _ _)

theorem low_price_pos {r : Draws} (hv : r.Valid) (i : ℕ) : 0 < low_price r i := by
  have hu := hv.2.2.2.2.2.1 i
  have hmin : (0 : ℚ) < min (open_price r i) (close_price r i) :=
    lt_min (open_price_pos hv i) (close_price_pos hv i)
  have hfac : (0 : ℚ) < 1 - r.low_u i := by
    have := hu.2
    linarith
  exact lt_min (mul_pos hmin hfac) hmin

/-- C9: with the random draws in their documented numpy ranges (initial price
in `[50, 200)`, drift in `[-0.005, 0.01)`, open/close noise in
`[-0.002, 0.002)`, high factor draw in `[0.001, 0.005)`, low factor draw in
`[0.001, 0.005)`), every generated bar has strictly positive open, high, low
and close prices. -/
theorem generate_prices_pos (ticker : String) (s e : ℤ) (r : Draws)
    (hv : r.Valid) (h : s ≤ e) (b : Bar)
    (hb : b ∈ generate_simulated_ohlcv ticker s e r) :
    0 < b.Open ∧ 0 < b.High ∧ 0 < b.Low ∧ 0 < b.Close := by
  obtain ⟨i, -, rfl⟩ := List.mem_map.mp hb
  exact ⟨open_price_pos hv i, high_price_pos hv i, low_price_pos hv i,
    close_price_pos hv i⟩

theorem generate_prices_pos_witness :
    Draws.Valid r0 ∧ (0 : ℤ) ≤ 0 ∧
      (0 < (mkBar r0 0 0).Open ∧ 0 < (mkBar r0 0 0).High ∧
        0 < (mkBar r0 0 0).Low ∧ 0 < (mkBar r0 0 0).Close) :=
  ⟨r0_valid, le_refl 0,
    generate_prices_pos "XYZ" 0 0 r0 r0_valid (le_refl 0) (mkBar r0 0 0)
      (List.mem_singleton.mpr rfl)⟩

theorem generate_ne_nil (ticker : String) {s e : ℤ} (r : Draws) (h : s ≤ e) :
    generate_simulated_ohlcv ticker s e r ≠ [] := by
  have := generate_length ticker r h
  intro hnil
  rw [hnil] at this
  simp at this

/-- C3: when the provider raises (`none`) or returns no rows (`some []`),
`_download_ohlcv` returns the synthetic series instead of surfacing the
failure; in particular, for a five-day request (`end = start + 4`, e.g.
`("XYZ", "2020-01-01", "2020-01-05")`) `get_ohlcv_data` on a fresh symbol
returns 5 bars from the synthetic path, each satisfying the OHLC ordering
invariant. -/
theorem download_fallback (ticker : String) (s e : ℤ)
    (provider : Option (List Bar)) (r : Draws)
    (hfail : provider = none ∨ provider = some []) (h : s ≤ e) :
    download_ohlcv ticker s e provider r
      = generate_simulated_ohlcv ticker s e r ∧
    (e = s + 4 →
      (get_ohlcv_data ticker s e none provider r).result.length = 5 ∧
      ∀ b ∈ (get_ohlcv_data ticker s e none provider r).result,
        b.Low ≤ min b.Open b.Close ∧ max b.Open b.Close ≤ b.High) := by
  have hd : download_ohlcv ticker s e provider r
      = generate_simulated_ohlcv ticker s e r := by
    rcases hfail with rfl | rfl <;> simp [download_ohlcv]
  have hres : (get_ohlcv_data ticker s e none provider r).result
      = generate_simulated_ohlcv ticker s e r := by
    simp [get_ohlcv_data, hd]
  refine ⟨hd, fun he => ⟨?_, ?_⟩⟩
  · rw [hres, generate_length ticker r h, he]
    omega
  · rw [hres]
    exact fun b hb => mem_generate_ohlc hb

theorem download_fallback_witness :
    ((none : Option (List Bar)) = none ∨ (none : Option (List Bar)) = some []) ∧
      (0 : ℤ) ≤ 4 ∧ (4 : ℤ) = 0 + 4 ∧
      ((get_ohlcv_data "XYZ" 0 4 none none r0).result.length = 5 ∧
        ∀ b ∈ (get_ohlcv_data "XYZ" 0 4 none none r0).result,
          b.Low ≤ min b.Open b.Close ∧ max b.Open b.Close ≤ b.High) :=
  ⟨Or.inl rfl, by decide, by decide,
    (download_fallback "XYZ" 0 4 none r0 (Or.inl rfl) (by decide)).2 (by decide)⟩

/-- A row of the stored file whose date lies inside `[0, 4]`. -/
def bar0 : Bar :=
  { Date := 2, Open := 10, High := 12, Low := 9, Close := 11, Volume := 1000 }

/-- A row of the stored file whose date lies outside `[0, 4]`. -/
def barOut : Bar :=
  { Date := 100, Open := 10, High := 12, Low := 9, Close := 11, Volume := 1000 }

theorem get_hit_eq (ticker : String) {s e : ℤ} {stored : List Bar}
    (provider : Option (List Bar)) (r : Draws)
    (h : filterRange stored s e ≠ []) :
    get_ohlcv_data ticker s e (some stored) provider r
      = { result := filterRange stored s e, store := some stored,
          provider_invoked := false } := by
  have hb : (filterRange stored s e).isEmpty = false := by
    simpa [List.isEmpty_iff] using h
  simp [get_ohlcv_data, hb]

theorem get_refetch_eq (ticker : String) {s e : ℤ} {stored : List Bar}
    (provider : Option (List Bar)) (r : Draws)
    (hempty : filterRange stored s e = [])
    (hne : download_ohlcv ticker s e provider r ≠ []) :
    get_ohlcv_data ticker s e (some stored) provider r
      = { result := filterRange (download_ohlcv ticker s e provider r) s e,
          store := some (download_ohlcv ticker s e provider r),
          provider_invoked := true } := by
  have h1 : (filterRange stored s e).isEmpty = true := by simp [hempty]
  have h2 : (download_ohlcv ticker s e provider r).isEmpty = false := by
    simpa [List.isEmpty_iff] using hne
  simp [get_ohlcv_data, h1, h2]

theorem get_stale_eq (ticker : String) {s e : ℤ} {stored : List Bar}
    (provider : Option (List Bar)) (r : Draws)
    (hempty : filterRange stored s e = [])
    (hnil : download_ohlcv ticker s e provider r = []) :
    get_ohlcv_data ticker s e (some stored) provider r
      = { result := [], store := some stored, provider_invoked := true } := by
  have h1 : (filterRange stored s e).isEmpty = true := by simp [hempty]
  simp [get_ohlcv_data, h1, hnil, hempty]

theorem download_ne_nil (ticker : String) {s e : ℤ}
    (provider : Option (List Bar)) (r : Draws) (h : s ≤ e) :
    download_ohlcv ticker s e provider r ≠ [] := by
  rcases provider with _ | df
  · exact generate_ne_nil ticker r h
  · by_cases hdf : df.isEmpty = true
    · simpa [download_ohlcv, hdf] using generate_ne_nil ticker r h
    · have hne : df ≠ [] := by simpa [List.isEmpty_iff] using hdf
      simpa [download_ohlcv, hdf] using hne

/-- C4: when the stored series' slice for the requested range is non-empty,
`get_ohlcv_data` returns that slice as-is (even if it does not span the whole
range), leaves the file untouched, and does not invoke the provider. -/
theorem cache_hit_as_is (ticker : String) (s e : ℤ) (stored : List Bar)
    (provider : Option (List Bar)) (r : Draws)
    (h : filterRange stored s e ≠ []) :
    get_ohlcv_data ticker s e (some stored) provider r
      = { result := filterRange stored s e, store := some stored,
          provider_invoked := false } :=
  get_hit_eq ticker provider r h

theorem cache_hit_as_is_witness :
    filterRange [bar0] 0 4 ≠ [] ∧
      get_ohlcv_data "XYZ" 0 4 (some [bar0]) none r0
        = { result := filterRange [bar0] 0 4, store := some [bar0],
            provider_invoked := false } :=
  ⟨by decide, cache_hit_as_is "XYZ" 0 4 [bar0] none r0 (by decide)⟩

/-- C5: when the stored series' slice for the range is empty, the hub
re-fetches; a non-empty re-fetch overwrites the file with the new full series
and the re-filtered slice is returned; an empty re-fetch leaves the file and
returns the prior (empty) slice — an empty list, never an exception. -/
theorem cache_miss_refetch (ticker : String) (s e : ℤ) (stored : List Bar)
    (provider : Option (List Bar)) (r : Draws)
    (hempty : filterRange stored s e = []) :
    (download_ohlcv ticker s e provider r ≠ [] →
        get_ohlcv_data ticker s e (some stored) provider r
          = { result := filterRange (download_ohlcv ticker s e provider r) s e,
              store := some (download_ohlcv ticker s e provider r),
              provider_invoked := true }) ∧
      (download_ohlcv ticker s e provider r = [] →
        get_ohlcv_data ticker s e (some stored) provider r
          = { result := [], store := some stored, provider_invoked := true }) :=
  ⟨fun hne => get_refetch_eq ticker provider r hempty hne,
    fun hnil => get_stale_eq ticker provider r hempty hnil⟩

theorem cache_miss_refetch_witness :
    filterRange [barOut] 0 4 = [] ∧
      (download_ohlcv "XYZ" 0 4 (some [bar0]) r0 ≠ [] →
        get_ohlcv_data "XYZ" 0 4 (some [barOut]) (some [bar0]) r0
          = { result := filterRange (download_ohlcv "XYZ" 0 4 (some [bar0]) r0) 0 4,
              store := some (download_ohlcv "XYZ" 0 4 (some [bar0]) r0),
              provider_invoked := true }) ∧
      (download_ohlcv "XYZ" 0 4 (some [bar0]) r0 = [] →
        get_ohlcv_data "XYZ" 0 4 (some [barOut]) (some [bar0]) r0
          = { result := [], store := some [barOut], provider_invoked := true }) :=
  ⟨by decide, cache_miss_refetch "XYZ" 0 4 [barOut] (some [bar0]) r0 (by decide)⟩

/-- C10: for `start ≤ end` the download step never returns an empty series —
a provider failure or empty result is replaced by a synthetic series of at
least one bar — so on a cache miss the re-fetch branch always overwrites the
file and returns the re-filtered new series: the "re-fetch itself is empty"
branch is unreachable. -/
theorem download_always_nonempty (ticker : String) (s e : ℤ)
    (provider : Option (List Bar)) (r : Draws) (h : s ≤ e) :
    download_ohlcv ticker s e provider r ≠ [] ∧
      ∀ stored : List Bar, filterRange stored s e = [] →
        get_ohlcv_data ticker s e (some stored) provider r
          = { result := filterRange (download_ohlcv ticker s e provider r) s e,
              store := some (download_ohlcv ticker s e provider r),
              provider_invoked := true } :=
  ⟨download_ne_nil ticker provider r h,
    fun _ hst => get_refetch_eq ticker provider r hst (download_ne_nil ticker provider r h)⟩

theorem download_always_nonempty_witness :
    (0 : ℤ) ≤ 4 ∧ download_ohlcv "XYZ" 0 4 none r0 ≠ [] ∧
      filterRange [barOut] 0 4 = [] ∧
      get_ohlcv_data "XYZ" 0 4 (some [barOut]) none r0
        = { result := filterRange (download_ohlcv "XYZ" 0 4 none r0) 0 4,
            store := some (download_ohlcv "XYZ" 0 4 none r0),
            provider_invoked := true } :=
  ⟨by decide, (download_always_nonempty "XYZ" 0 4 none r0 (by decide)).1,
    by decide,
    (download_always_nonempty "XYZ" 0 4 none r0 (by decide)).2 [barOut] (by decide)⟩

theorem filterRange_eq_self {l : List Bar} {s e : ℤ}
    (hall : ∀ b ∈ l, s ≤ b.Date ∧ b.Date ≤ e) : filterRange l s e = l := by
  apply List.filter_eq_self.mpr
  intro b hb
  have := hall b hb
  simp [this.1, this.2]

theorem get_result_store (ticker : String) (s e : ℤ)
    (store provider : Option (List Bar)) (r : Draws) {saved : List Bar}
    (h1 : (get_ohlcv_data ticker s e store provider r).store = some saved) :
    (get_ohlcv_data ticker s e store provider r).result = saved ∨
      (get_ohlcv_data ticker s e store provider r).result
        = filterRange saved s e := by
  rcases store with _ | st
  · left
    have h1' : download_ohlcv ticker s e provider r = saved := Option.some.inj h1
    exact h1'
  · right
    by_cases hf : (filterRange st s e).isEmpty = true
    · by_cases hd : (download_ohlcv ticker s e provider r).isEmpty = true
      · have hnil : download_ohlcv ticker s e provider r = [] :=
          List.isEmpty_iff.mp hd
        have hst : filterRange st s e = [] := List.isEmpty_iff.mp hf
        have heq := get_stale_eq ticker provider r hst hnil
        rw [heq] at h1 ⊢
        have : st = saved := Option.some.inj h1
        subst this
        simp [hst]
      · have hne : download_ohlcv ticker s e provider r ≠ [] := by
          simpa [List.isEmpty_iff] using hd
        have hst : filterRange st s e = [] := List.isEmpty_iff.mp hf
        have heq := get_refetch_eq ticker provider r hst hne
        rw [heq] at h1 ⊢
        have : download_ohlcv ticker s e provider r = saved := Option.some.inj h1
        subst this
        rfl
    · have hne : filterRange st s e ≠ [] := by
        simpa [List.isEmpty_iff] using hf
      have heq := get_hit_eq ticker provider r hne
      rw [heq] at h1 ⊢
      have : st = saved := Option.some.inj h1
      subst this
      rfl

/-- C6 counterexample: on a fresh symbol the hub returns the fetched series
unfiltered; with a provider result containing a row dated outside the
requested range (`Date = 100` for the range `[0, 4]`) the returned rows are
not the slice of the saved series restricted to the range. -/
theorem fresh_fetch_counterexample :
    (get_ohlcv_data "XYZ" 0 4 none (some [barOut]) r0).result
      ≠ filterRange (download_ohlcv "XYZ" 0 4 (some [barOut]) r0) 0 4 := by
  decide

/-- C6 (amended): on a fresh symbol the hub fetches (with synthetic fallback
inside `download_ohlcv`), saves the full unfiltered series, and returns that
series unfiltered; the returned rows coincide with the slice restricted to
`[start, end]` whenever every fetched date lies in the range (as holds for
the synthetic path, which generates exactly the requested days). -/
theorem fresh_fetch (ticker : String) (s e : ℤ)
    (provider : Option (List Bar)) (r : Draws) :
    get_ohlcv_data ticker s e none provider r
      = { result := download_ohlcv ticker s e provider r,
          store := some (download_ohlcv ticker s e provider r),
          provider_invoked := true } ∧
      ((∀ b ∈ download_ohlcv ticker s e provider r, s ≤ b.Date ∧ b.Date ≤ e) →
        (get_ohlcv_data ticker s e none provider r).result
          = filterRange (download_ohlcv ticker s e provider r) s e) := by
  refine ⟨rfl, fun hall => ?_⟩
  rw [filterRange_eq_self hall]
  rfl

theorem fresh_fetch_witness :
    (∀ b ∈ download_ohlcv "XYZ" 0 4 (some [bar0]) r0,
        (0 : ℤ) ≤ b.Date ∧ b.Date ≤ 4) ∧
      (get_ohlcv_data "XYZ" 0 4 none (some [bar0]) r0).result
        = filterRange (download_ohlcv "XYZ" 0 4 (some [bar0]) r0) 0 4 :=
  ⟨by decide, (fresh_fetch "XYZ" 0 4 (some [bar0]) r0).2 (by decide)⟩

/-- C7 counterexample: a first call on a fresh store with a provider series
holding one in-range and one out-of-range row saves that series, whose slice
for the range is non-empty; yet a second call with the same arguments
returns different rows (the slice) than the first call (the full series). -/
theorem second_call_counterexample :
    (get_ohlcv_data "XYZ" 0 4 none (some [bar0, barOut]) r0).store
        = some [bar0, barOut] ∧
      filterRange [bar0, barOut] 0 4 ≠ [] ∧
      (get_ohlcv_data "XYZ" 0 4 (some [bar0, barOut]) (some [bar0, barOut])
            r0).result
        ≠ (get_ohlcv_data "XYZ" 0 4 none (some [bar0, barOut]) r0).result := by
  decide

/-- C7 (amended): if the first `get_ohlcv_data` call left the file holding
`saved` and the slice of `saved` for the range is non-empty, a second call
with the same arguments returns that slice without invoking the provider
(for any provider outcome and draws of the second call); the second call's
rows equal the first call's rows whenever every date of `saved` lies in the
requested range — as holds whenever the series came from the synthetic path. -/
theorem second_call_idempotent (ticker : String) (s e : ℤ)
    (store0 provider provider2 : Option (List Bar)) (r r2 : Draws)
    (saved : List Bar)
    (h1 : (get_ohlcv_data ticker s e store0 provider r).store = some saved)
    (h2 : filterRange saved s e ≠ []) :
    get_ohlcv_data ticker s e ((get_ohlcv_data ticker s e store0 provider r).store)
        provider2 r2
      = { result := filterRange saved s e, store := some saved,
          provider_invoked := false } ∧
      ((∀ b ∈ saved, s ≤ b.Date ∧ b.Date ≤ e) →
        (get_ohlcv_data ticker s e store0 provider r).result
          = filterRange saved s e) := by
  constructor
  · rw [h1]
    exact get_hit_eq ticker provider2 r2 h2
  · intro hall
    rcases get_result_store ticker s e store0 provider r h1 with hres | hres
    · rw [hres, filterRange_eq_self hall]
    · exact hres

theorem second_call_idempotent_witness :
    (get_ohlcv_data "XYZ" 0 4 none (some [bar0]) r0).store = some [bar0] ∧
      filterRange [bar0] 0 4 ≠ [] ∧
      get_ohlcv_data "XYZ" 0 4
          ((get_ohlcv_data "XYZ" 0 4 none (some [bar0]) r0).store) (some [bar0]) r0
        = { result := filterRange [bar0] 0 4, store := some [bar0],
            provider_invoked := false } ∧
      (get_ohlcv_data "XYZ" 0 4 none (some [bar0]) r0).result
        = filterRange [bar0] 0 4 :=
  ⟨by decide, by decide,
    (second_call_idempotent "XYZ" 0 4 none (some [bar0]) (some [bar0]) r0 r0
        [bar0] (by decide) (by decide)).1,
    (second_call_idempotent "XYZ" 0 4 none (some [bar0]) (some [bar0]) r0 r0
        [bar0] (by decide) (by decide)).2 (by decide)⟩

/-- Modelled from the spec: the store's on-disk format (`df.to_csv` /
`pd.read_csv(..., index_col='Date', parse_dates=True)` are pandas, outside
this repository).  A serialized rational cell: sign flag, numerator digits,
denominator digits in decimal (little-endian), as decimal text in a CSV
field. -/
structure RatCell where
  neg : Bool
  num : List ℕ
  den : List ℕ
  deriving DecidableEq

/-- Modelled from the spec: one serialized file row — the `Date` index cell
(sign and decimal digits of the day number) and the five value columns. -/
structure CsvRow where
  Date : Bool × List ℕ
  Open : RatCell
  High : RatCell
  Low : RatCell
  Close : RatCell
  Volume : List ℕ
  deriving DecidableEq

def encRat (q : ℚ) : RatCell :=
  { neg := decide (q < 0), num := Nat.digits 10 q.num.natAbs,
    den := Nat.digits 10 q.den }

def decRat (c : RatCell) : ℚ :=
  (if c.neg then -1 else 1) * ((Nat.ofDigits 10 c.num : ℕ) : ℚ)
    / ((Nat.ofDigits 10 c.den : ℕ) : ℚ)

def encDate (i : ℤ) : Bool × List ℕ :=
  (decide (i < 0), Nat.digits 10 i.natAbs)

def decDate (c : Bool × List ℕ) : ℤ :=
  if c.1 then -((Nat.ofDigits 10 c.2 : ℕ) : ℤ) else ((Nat.ofDigits 10 c.2 : ℕ) : ℤ)

/-- Modelled from the spec: `save(symbol, series)` serializes every row,
date index first. -/
def encodeBar (b : Bar) : CsvRow :=
  { Date := encDate b.Date, Open := encRat b.Open, High := encRat b.High,
    Low := encRat b.Low, Close := encRat b.Close,
    Volume := Nat.digits 10 b.Volume }

/-- Modelled from the spec: `load(symbol)` parses every row, reading the
date column back as a date. -/
def decodeBar (row : CsvRow) : Bar :=
  { Date := decDate row.Date, Open := decRat row.Open, High := decRat row.High,
    Low := decRat row.Low, Close := decRat row.Close,
    Volume := Nat.ofDigits 10 row.Volume }

/-- Modelled from the spec: the serialized file contents written by
`save(symbol, series)` (`df.to_csv` with the date as named index column). -/
def to_csv (df : List Bar) : List CsvRow :=
  df.map encodeBar

/-- Modelled from the spec: the series parsed back by `load(symbol)`
(`pd.read_csv` parsing the date column as dates). -/
def read_csv (rows : List CsvRow) : List Bar :=
  rows.map decodeBar

theorem decDate_encDate (i : ℤ) : decDate (encDate i) = i := by
  unfold decDate encDate
  simp only [Nat.ofDigits_digits]
  by_cases hi : i < 0
  · rw [if_pos (by simpa using hi)]
    omega
  · rw [if_neg (by simpa using hi)]
    omega

theorem decRat_encRat (q : ℚ) : decRat (encRat q) = q := by
  unfold decRat encRat
  simp only [Nat.ofDigits_digits]
  by_cases hq : q < 0
  · have h1 : q.num < 0 := by
      by_contra hc
      push_neg at hc
      exact absurd (Rat.num_nonneg.mp hc) (not_le.mpr hq)
    have h2 : ((q.num.natAbs : ℕ) : ℚ) = -(q.num : ℚ) := by
      rw [Int.cast_natAbs, abs_of_neg h1]
      push_cast
      ring
    rw [if_pos (by simpa using hq), h2, neg_one_mul, neg_neg, Rat.num_div_den]
  · have h1 : 0 ≤ q.num := Rat.num_nonneg.mpr (not_lt.mp hq)
    have h2 : ((q.num.natAbs : ℕ) : ℚ) = (q.num : ℚ) := by
      rw [Int.cast_natAbs, abs_of_nonneg h1]
    rw [if_neg (by simpa using hq), h2, one_mul, Rat.num_div_den]

theorem decodeBar_encodeBar (b : Bar) : decodeBar (encodeBar b) = b := by
  cases b
  simp [decodeBar, encodeBar, decDate_encDate, decRat_encRat, Nat.ofDigits_digits]

/-- C8: serializing a series to the store's decimal text format (date index
cell first) and parsing it back yields the series unchanged — identical
dates and numerically equal `Open`, `High`, `Low`, `Close` and `Volume`
fields: persistence is lossless for the stored precision. -/
theorem save_load_roundtrip (df : List Bar) : read_csv (to_csv df) = df := by
  unfold read_csv to_csv
  rw [List.map_map]
  have h : decodeBar ∘ encodeBar = id := funext fun b => decodeBar_encodeBar b
  rw [h, List.map_id]
